import Mathlib

/-!
Verification of the build-job descriptor compiler/validator subsystem of the
webworks-claude-skills repository.

The Python scripts under `plugins/*/skills/automap/scripts/` are embedded
shallowly: XML documents are modelled as element trees (`Xml`), the text
serialization / re-parsing layer of `ElementTree`/`minidom` is modelled as the
identity on element trees, filesystem existence probes become boolean oracles
(`String → Bool`, keyed by the reference string, absorbing the resolution
against the job file's directory), and file writes become explicit event
traces or state sequences.
-/

namespace AutoMap

/-- An XML element as `xml.etree.ElementTree` presents it: a tag, an ordered
attribute list, optional text content, and an ordered list of child
elements. -/
inductive Xml where
  | elem (tag : String) (attrs : List (String × String)) (txt : Option String)
      (children : List Xml)

def Xml.tag : Xml → String
  | .elem t _ _ _ => t

def Xml.attrs : Xml → List (String × String)
  | .elem _ a _ _ => a

def Xml.txt : Xml → Option String
  | .elem _ _ s _ => s

def Xml.children : Xml → List Xml
  | .elem _ _ _ c => c

/-- Python `Element.get(key)`: first attribute with the given name, else `None`. -/
def attrLookup : List (String × String) → String → Option String
  | [], _ => none
  | (k, v) :: rest, key => if k == key then some v else attrLookup rest key

def Xml.get (e : Xml) (key : String) : Option String :=
  attrLookup e.attrs key

/-- Python `Element.get(key, default)`. -/
def Xml.getD (e : Xml) (key dflt : String) : String :=
  (e.get key).getD dflt

/-- Python `Element.find(tag)`: first direct child with the tag. -/
def Xml.findTag (e : Xml) (t : String) : Option Xml :=
  e.children.find? (fun c => c.tag == t)

/-- Python `Element.findall(tag)`: all direct children with the tag, in order. -/
def Xml.findallTag (e : Xml) (t : String) : List Xml :=
  e.children.filter (fun c => c.tag == t)

mutual

/-- Python `Element.iter()` restricted to one subtree: the element itself followed by
all of its descendants in document order. -/
def Xml.iterAll : Xml → List Xml
  | .elem t a s c => Xml.elem t a s c :: iterChildren c

/-- All elements of a child list together with their descendants, in document
order. -/
def iterChildren : List Xml → List Xml
  | [] => []
  | x :: xs => x.iterAll ++ iterChildren xs

end

/-- Python `Element.iter(tag)`: the element itself and all descendants with the tag. -/
def Xml.iterTag (e : Xml) (t : String) : List Xml :=
  e.iterAll.filter (fun c => c.tag == t)

/-- Python `Element.findall('.//tag')`: all strict descendants with the tag. -/
def Xml.findallDesc (e : Xml) (t : String) : List Xml :=
  (iterChildren e.children).filter (fun c => c.tag == t)

/-- The ePublisher project namespace; `ElementTree` expands a namespaced tag
`ep:T` to `{urn:WebWorks-Publish-Project}T`. -/
def nsTag (t : String) : String :=
  "\x7burn:WebWorks-Publish-Project\x7d" ++ t

/-- Two-phase descendant lookup used throughout the sources:
`root.findall('.//ep:T', ns)` first, falling back to `list(root.iter('T'))`
when the namespaced query finds nothing. -/
def Xml.findallNsDesc (e : Xml) (t : String) : List Xml :=
  let withNs := e.findallDesc (nsTag t)
  if withNs.isEmpty then e.iterTag t else withNs

/-- Two-phase direct-child `find`: `elem.find('ep:T', ns)` then
`elem.find('T')`. -/
def Xml.findNs (e : Xml) (t : String) : Option Xml :=
  match e.findTag (nsTag t) with
  | some r => some r
  | none => e.findTag t

/-- Two-phase direct-child `findall`: `elem.findall('ep:T', ns)` or, when that
is empty, `elem.findall('T')`. -/
def Xml.findallNs (e : Xml) (t : String) : List Xml :=
  let withNs := e.findallTag (nsTag t)
  if withNs.isEmpty then e.findallTag t else withNs

/-! ## Structured build configuration

The configuration dictionaries exchanged between `create-job.py`,
`parse-job.py` and `list-job-targets.py`. The Python code reads dictionary
keys with `.get(key, default)`; a structured configuration (the subject of
the claims) has every key present, so the records below carry total
fields. -/

/-- A `{'name': ..., 'value': ...}` pair (condition, variable or setting). -/
structure NameValue where
  name : String
  value : String
deriving Repr, DecidableEq

/-- A document group: `{'name': ..., 'documents': [...]}`. -/
structure GroupCfg where
  name : String
  documents : List String
deriving Repr, DecidableEq

/-- One target entry of a job configuration, as produced by
`extract_job_info` and consumed by `generate_job_xml`. -/
structure TargetCfg where
  name : String
  format : String
  formatType : String
  build : Bool
  cleanOutput : Bool
  deployTarget : String
  conditions : List NameValue
  vars : List NameValue
  settings : List NameValue
deriving Repr, DecidableEq

/-- A structured build configuration (the JSON config of `create-job.py`).
`version` models a `version` key that a caller may carry in the dictionary;
`generate_job_xml` never reads it. -/
structure Config where
  name : String
  version : String
  stationery : String
  groups : List GroupCfg
  targets : List TargetCfg
deriving Repr, DecidableEq

/-! ## Job Descriptor Serializer — `create-job.py`, `generate_job_xml`

Both plugin copies build the identical element tree; the embedding models
the tree-building phase. The trailing `minidom` pretty-printing and the
re-parsing done later by `parse-job.py` are modelled as the identity on
element trees. -/

/-- One `<Condition>` element, as emitted inside `<Conditions>`. -/
def condElem (cond : NameValue) : Xml :=
  .elem "Condition"
    [("name", cond.name), ("value", cond.value),
     ("Passthrough", "False"), ("UseDocumentValue", "False")] none []

/-- One `<Variable>` element. -/
def varElem (v : NameValue) : Xml :=
  .elem "Variable"
    [("name", v.name), ("value", v.value), ("UseDocumentValue", "False")] none []

/-- One `<Setting>` element. -/
def settingElem (s : NameValue) : Xml :=
  .elem "Setting" [("name", s.name), ("value", s.value)] none []

/-- One `<Target>` element with its optional `Conditions`/`Variables`/
`Settings` child blocks, emitted only when the corresponding list is
non-empty, in that fixed order. -/
def targetElem (t : TargetCfg) : Xml :=
  .elem "Target"
    [("name", t.name), ("format", t.format), ("formatType", t.formatType),
     ("build", if t.build then "True" else "False"),
     ("deployTarget", t.deployTarget),
     ("cleanOutput", if t.cleanOutput then "True" else "False")] none
    ((if t.conditions.isEmpty then [] else
        [Xml.elem "Conditions"
          [("Expression", ""), ("UseClassicConditions", "False"),
           ("UseDocumentExpression", "True")] none (t.conditions.map condElem)]) ++
     (if t.vars.isEmpty then [] else
        [Xml.elem "Variables" [] none (t.vars.map varElem)]) ++
     (if t.settings.isEmpty then [] else
        [Xml.elem "Settings" [] none (t.settings.map settingElem)]))

/-- One `<Group>` element with its `<Document>` children. -/
def groupElem (g : GroupCfg) : Xml :=
  .elem "Group" [("name", g.name)] none
    (g.documents.map fun d => Xml.elem "Document" [("path", d)] none [])

/-- The function `generate_job_xml`: the canonical job descriptor element tree. The root
`version` attribute is the literal `"1.0"`, regardless of the
configuration. -/
def generate_job_xml (config : Config) : Xml :=
  .elem "Job" [("name", config.name), ("version", "1.0")] none
    (Xml.elem "Project" [("path", config.stationery)] none []
      :: Xml.elem "Files" [] none (config.groups.map groupElem)
      :: [Xml.elem "Targets" [] none (config.targets.map targetElem)])

/-! ## Job Descriptor Reader — `parse-job.py`, `extract_job_info` -/

/-- The dictionary `extract_job_info` returns. Resolution of the stationery
reference against the job file's directory is abstracted: the filesystem
oracle is keyed by the raw reference string and `stationeryResolved` holds
that string (empty when no reference is present). -/
structure JobInfo where
  name : String
  version : String
  stationery : String
  stationeryResolved : String
  stationeryExists : Bool
  groups : List GroupCfg
  targets : List TargetCfg
deriving Repr, DecidableEq

/-- The per-`<Target>` body of `extract_job_info`'s target loop. -/
def extractTarget (el : Xml) : TargetCfg :=
  { name := el.getD "name" ""
    format := el.getD "format" ""
    formatType := el.getD "formatType" "Application"
    build := el.getD "build" "True" == "True"
    cleanOutput := el.getD "cleanOutput" "False" == "True"
    deployTarget := el.getD "deployTarget" ""
    conditions :=
      match el.findTag "Conditions" with
      | some ce => (ce.findallTag "Condition").map fun c =>
          ⟨c.getD "name" "", c.getD "value" ""⟩
      | none => []
    vars :=
      match el.findTag "Variables" with
      | some ve => (ve.findallTag "Variable").map fun v =>
          ⟨v.getD "name" "", v.getD "value" ""⟩
      | none => []
    settings :=
      match el.findTag "Settings" with
      | some se => (se.findallTag "Setting").map fun s =>
          ⟨s.getD "name" "", s.getD "value" ""⟩
      | none => [] }

/-- The per-`<Group>` body of `extract_job_info`'s group loop. -/
def extractGroup (g : Xml) : GroupCfg :=
  ⟨g.getD "name" "", (g.findallTag "Document").map fun d => d.getD "path" ""⟩

/-- The function `extract_job_info(root, job_path)`; `fs` is the filesystem-existence
oracle standing for `(job_dir / path).exists()`. -/
def extract_job_info (root : Xml) (fs : String → Bool) : JobInfo :=
  let stationery :=
    match root.findTag "Project" with
    | some p => p.getD "path" ""
    | none => ""
  { name := root.getD "name" "Unknown"
    version := root.getD "version" "1.0"
    stationery := stationery
    stationeryResolved := if stationery ≠ "" then stationery else ""
    stationeryExists := stationery ≠ "" && fs stationery
    groups :=
      match root.findTag "Files" with
      | some fe => (fe.findallTag "Group").map extractGroup
      | none => []
    targets :=
      match root.findTag "Targets" with
      | some te => (te.findallTag "Target").map extractTarget
      | none => [] }

/-- The function `output_config`: the `create-job.py`-compatible configuration exported by
`parse-job.py` — name, stationery, groups and targets. The exported JSON has
no `version` key; the record's `version` field carries the parsed value to
make explicit that the serializer ignores it. -/
def config_of_job_info (ji : JobInfo) : Config :=
  ⟨ji.name, ji.version, ji.stationery, ji.groups, ji.targets⟩

/-! ## Target listing — `list-job-targets.py`, `extract_targets` -/

/-- One entry of the list returned by `extract_targets`. -/
structure TargetEntry where
  name : String
  format : String
  formatType : String
  build : Bool
  cleanOutput : Bool
  deployTarget : String
  conditionsCount : Nat
  variablesCount : Nat
  settingsCount : Nat
  conditions : List NameValue
  vars : List NameValue
  settings : List NameValue
deriving Repr, DecidableEq

/-- The per-`<Target>` body of `extract_targets`'s loop. -/
def extractTargetEntry (el : Xml) : TargetEntry :=
  { name := el.getD "name" ""
    format := el.getD "format" ""
    formatType := el.getD "formatType" "Application"
    build := el.getD "build" "True" == "True"
    cleanOutput := el.getD "cleanOutput" "False" == "True"
    deployTarget := el.getD "deployTarget" ""
    conditionsCount :=
      match el.findTag "Conditions" with
      | some ce => (ce.findallTag "Condition").length
      | none => 0
    variablesCount :=
      match el.findTag "Variables" with
      | some ve => (ve.findallTag "Variable").length
      | none => 0
    settingsCount :=
      match el.findTag "Settings" with
      | some se => (se.findallTag "Setting").length
      | none => 0
    conditions :=
      match el.findTag "Conditions" with
      | some ce => (ce.findallTag "Condition").map fun c =>
          ⟨c.getD "name" "", c.getD "value" ""⟩
      | none => []
    vars :=
      match el.findTag "Variables" with
      | some ve => (ve.findallTag "Variable").map fun v =>
          ⟨v.getD "name" "", v.getD "value" ""⟩
      | none => []
    settings :=
      match el.findTag "Settings" with
      | some se => (se.findallTag "Setting").map fun s =>
          ⟨s.getD "name" "", s.getD "value" ""⟩
      | none => [] }

/-- The function `extract_targets(root)` of `list-job-targets.py`. -/
def extract_targets (root : Xml) : List TargetEntry :=
  match root.findTag "Targets" with
  | none => []
  | some te => (te.findallTag "Target").map extractTargetEntry

/-! ## Helper lemmas -/

@[simp] lemma Xml.tag_mk (t : String) (a : List (String × String)) (s : Option String)
    (c : List Xml) : (Xml.elem t a s c).tag = t := rfl

@[simp] lemma Xml.attrs_mk (t : String) (a : List (String × String)) (s : Option String)
    (c : List Xml) : (Xml.elem t a s c).attrs = a := rfl

@[simp] lemma Xml.children_mk (t : String) (a : List (String × String)) (s : Option String)
    (c : List Xml) : (Xml.elem t a s c).children = c := rfl

@[simp] lemma Xml.get_mk (t : String) (a : List (String × String)) (s : Option String)
    (c : List Xml) (k : String) : (Xml.elem t a s c).get k = attrLookup a k := rfl

lemma cond_roundtrip (l : List NameValue) :
    ((l.map condElem).filter (fun c => c.tag == "Condition")).map
      (fun c => (⟨c.getD "name" "", c.getD "value" ""⟩ : NameValue)) = l := by
  induction l with
  | nil => rfl
  | cons a l ih =>
      rw [List.map_cons, List.filter_cons_of_pos (by rfl), List.map_cons, ih]
      rfl

lemma var_roundtrip (l : List NameValue) :
    ((l.map varElem).filter (fun c => c.tag == "Variable")).map
      (fun v => (⟨v.getD "name" "", v.getD "value" ""⟩ : NameValue)) = l := by
  induction l with
  | nil => rfl
  | cons a l ih =>
      rw [List.map_cons, List.filter_cons_of_pos (by rfl), List.map_cons, ih]
      rfl

lemma setting_roundtrip (l : List NameValue) :
    ((l.map settingElem).filter (fun c => c.tag == "Setting")).map
      (fun s => (⟨s.getD "name" "", s.getD "value" ""⟩ : NameValue)) = l := by
  induction l with
  | nil => rfl
  | cons a l ih =>
      rw [List.map_cons, List.filter_cons_of_pos (by rfl), List.map_cons, ih]
      rfl

lemma doc_roundtrip (l : List String) :
    (((l.map fun d => Xml.elem "Document" [("path", d)] none []).filter
        (fun c => c.tag == "Document")).map (fun d => d.getD "path" "")) = l := by
  induction l with
  | nil => rfl
  | cons a l ih =>
      rw [List.map_cons, List.filter_cons_of_pos (by rfl), List.map_cons, ih]
      rfl

/-- Parsing one serialized target recovers the target configuration. -/
lemma extractTarget_targetElem (t : TargetCfg) : extractTarget (targetElem t) = t := by
  obtain ⟨n, f, ft, b, co, dt, conds, vars, sets⟩ := t
  cases conds <;> cases vars <;> cases sets <;> cases b <;> cases co <;>
    · simp only [extractTarget, targetElem, TargetCfg.mk.injEq, Xml.findTag,
        Xml.children_mk, Xml.tag_mk, List.find?, Xml.findallTag, String.reduceBEq,
        beq_self_eq_true, cond_roundtrip, var_roundtrip, setting_roundtrip]
      repeat' constructor

/-- Parsing one serialized group recovers the group configuration. -/
lemma extractGroup_groupElem (g : GroupCfg) : extractGroup (groupElem g) = g := by
  obtain ⟨n, docs⟩ := g
  simp only [extractGroup, groupElem, GroupCfg.mk.injEq, Xml.findallTag,
    Xml.children_mk, doc_roundtrip]
  repeat' constructor

lemma groups_roundtrip (l : List GroupCfg) :
    ((l.map groupElem).filter (fun c => c.tag == "Group")).map extractGroup = l := by
  induction l with
  | nil => rfl
  | cons a l ih =>
      rw [List.map_cons, List.filter_cons_of_pos (by rfl), List.map_cons, ih,
        extractGroup_groupElem]

lemma targets_roundtrip (l : List TargetCfg) :
    ((l.map targetElem).filter (fun c => c.tag == "Target")).map extractTarget = l := by
  induction l with
  | nil => rfl
  | cons a l ih =>
      rw [List.map_cons, List.filter_cons_of_pos ?_, List.map_cons, ih,
        extractTarget_targetElem]
      obtain ⟨n, f, ft, b, co, dt, conds, vars, sets⟩ := a
      rfl

lemma beq_true_eq_decide (v : String) : (v == "True") = decide (v = "True") := by
  cases h : decide (v = "True") with
  | true => simp_all
  | false => simp_all

/-! ## Claim theorems: round-trip, boolean parsing, fixed version -/

/-- C1: serializing a structured build configuration with `generate_job_xml`
and parsing the produced document with `extract_job_info` yields the same
groups, the same documents per group in the same order, and the same targets
with the same condition/variable/setting sub-lists in the same order; each
target's `build` and `cleanOutput` booleans travel through the canonical
`"True"`/`"False"` string encoding. -/
theorem serialize_parse_roundtrip (config : Config) (fs : String → Bool) :
    (extract_job_info (generate_job_xml config) fs).groups = config.groups ∧
    (extract_job_info (generate_job_xml config) fs).targets = config.targets ∧
    ∀ t ∈ config.targets,
      (targetElem t).get "build" = some (if t.build then "True" else "False") ∧
      (targetElem t).get "cleanOutput" =
        some (if t.cleanOutput then "True" else "False") := by
  refine ⟨?_, ?_, ?_⟩
  · show (match (generate_job_xml config).findTag "Files" with
      | some fe => (fe.findallTag "Group").map extractGroup
      | none => []) = config.groups
    simp only [generate_job_xml, Xml.findTag, Xml.children_mk, List.find?,
      Xml.tag_mk, String.reduceBEq, Xml.findallTag, groups_roundtrip]
  · show (match (generate_job_xml config).findTag "Targets" with
      | some te => (te.findallTag "Target").map extractTarget
      | none => []) = config.targets
    simp only [generate_job_xml, Xml.findTag, Xml.children_mk, List.find?,
      Xml.tag_mk, String.reduceBEq, Xml.findallTag, targets_roundtrip]
  · intro t _
    exact ⟨rfl, rfl⟩

/-- C1 instantiation: the round trip at a concrete two-group, one-target
configuration. -/
theorem serialize_parse_roundtrip_witness :
    (extract_job_info (generate_job_xml
        ⟨"en", "2.0", "Stationery\\doc.wxsp",
          [⟨"Main", ["a.md", "b.md"]⟩, ⟨"Ref", []⟩],
          [⟨"WebWorks Reverb 2.0", "Reverb", "Application", false, true, "prod",
            [⟨"OnlineOnly", "True"⟩], [⟨"Ver", "2"⟩], [⟨"PDF", "1"⟩]⟩]⟩)
        (fun _ => false)).groups =
      [⟨"Main", ["a.md", "b.md"]⟩, ⟨"Ref", []⟩] ∧
    (extract_job_info (generate_job_xml
        ⟨"en", "2.0", "Stationery\\doc.wxsp",
          [⟨"Main", ["a.md", "b.md"]⟩, ⟨"Ref", []⟩],
          [⟨"WebWorks Reverb 2.0", "Reverb", "Application", false, true, "prod",
            [⟨"OnlineOnly", "True"⟩], [⟨"Ver", "2"⟩], [⟨"PDF", "1"⟩]⟩]⟩)
        (fun _ => false)).targets =
      [⟨"WebWorks Reverb 2.0", "Reverb", "Application", false, true, "prod",
        [⟨"OnlineOnly", "True"⟩], [⟨"Ver", "2"⟩], [⟨"PDF", "1"⟩]⟩] := by
  have h := serialize_parse_roundtrip
    ⟨"en", "2.0", "Stationery\\doc.wxsp",
      [⟨"Main", ["a.md", "b.md"]⟩, ⟨"Ref", []⟩],
      [⟨"WebWorks Reverb 2.0", "Reverb", "Application", false, true, "prod",
        [⟨"OnlineOnly", "True"⟩], [⟨"Ver", "2"⟩], [⟨"PDF", "1"⟩]⟩]⟩
    (fun _ => false)
  exact ⟨h.1, h.2.1⟩

/-- C3: both readers (`extract_job_info` of `parse-job.py` and
`extract_targets` of `list-job-targets.py`) interpret a target's `build` and
`cleanOutput` attributes by exact string equality with `"True"`; an absent
attribute defaults to `true` for `build` and `false` for `cleanOutput`, and
any other present value — including `"true"`, `"TRUE"` and `"1"` — reads as
`false`. -/
theorem reader_bool_exact_string_equality :
    (∀ el : Xml,
      ((extractTarget el).build =
        match el.get "build" with
        | none => true
        | some v => decide (v = "True")) ∧
      ((extractTarget el).cleanOutput =
        match el.get "cleanOutput" with
        | none => false
        | some v => decide (v = "True")) ∧
      ((extractTargetEntry el).build =
        match el.get "build" with
        | none => true
        | some v => decide (v = "True")) ∧
      ((extractTargetEntry el).cleanOutput =
        match el.get "cleanOutput" with
        | none => false
        | some v => decide (v = "True"))) ∧
    (extractTarget (Xml.elem "Target" [("build", "true")] none [])).build = false ∧
    (extractTarget (Xml.elem "Target" [("build", "TRUE")] none [])).build = false ∧
    (extractTarget (Xml.elem "Target" [("build", "1")] none [])).build = false ∧
    (extractTarget (Xml.elem "Target" [] none [])).build = true ∧
    (extractTarget (Xml.elem "Target" [] none [])).cleanOutput = false := by
  refine ⟨fun el => ?_, rfl, rfl, rfl, rfl, rfl⟩
  have hb : (extractTarget el).build = ((el.get "build").getD "True" == "True") := rfl
  have hc : (extractTarget el).cleanOutput =
      ((el.get "cleanOutput").getD "False" == "True") := rfl
  have hb' : (extractTargetEntry el).build =
      ((el.get "build").getD "True" == "True") := rfl
  have hc' : (extractTargetEntry el).cleanOutput =
      ((el.get "cleanOutput").getD "False" == "True") := rfl
  refine ⟨?_, ?_, ?_, ?_⟩ <;>
    [rw [hb]; rw [hc]; rw [hb']; rw [hc']] <;>
    cases el.get "build" <;> cases el.get "cleanOutput" <;>
    simp [beq_true_eq_decide]

/-- C10: `generate_job_xml` always sets the root `version` attribute to the
literal `"1.0"`, whatever version the configuration carries, so a job
descriptor parsed with any other version and re-compiled via the exported
configuration is emitted with version `"1.0"`. -/
theorem version_attribute_is_literal (config : Config) (fs : String → Bool)
    (root : Xml) :
    (generate_job_xml config).get "version" = some "1.0" ∧
    (extract_job_info (generate_job_xml config) fs).version = "1.0" ∧
    (generate_job_xml (config_of_job_info (extract_job_info root fs))).get
      "version" = some "1.0" :=
  ⟨rfl, rfl, rfl⟩

/-! ## Cross-Validator — `validate-job.py`

Filesystem existence of a path resolved against the job file's directory is
modelled by an oracle `fs : String → Bool` applied to the raw path string.
Log messages are reproduced verbatim, with Python f-string number formatting
rendered through `toString`. -/

/-- Exit codes shared by the scripts. -/
def EXIT_SUCCESS : Int := 0

def EXIT_FILE_ERROR : Int := 1

def EXIT_VALIDATION_FAILED : Int := 3

def EXIT_VALIDATION_ERROR : Int := 3

def EXIT_CANCELLED : Int := 4

/-- The `ValidationResult` class: one named check with a pass/fail flag, a
message and an ordered warning list. -/
structure ValidationResult where
  name : String
  passed : Bool
  message : String
  warnings : List String
deriving Repr, DecidableEq

/-- The environment a `validate-job.py` run observes. `parseResult` is the
outcome of `ET.parse` on the job file; `stationeryParse` the outcome of
parsing the referenced stationery file when a later check attempts it. -/
structure JobEnv where
  jobFile : String
  fileName : String
  suffix : String
  fileExists : Bool
  parseResult : Option Xml
  parseError : String
  fs : String → Bool
  stationeryParse : Option Xml
  stationeryParseError : String
  checkDocuments : Bool
  checkStationery : Bool

/-- Python `str.lower()` as used on the file suffix: character-wise
lowercasing. -/
def strLower (s : String) : String :=
  ⟨s.data.map Char.toLower⟩

/-- The check `validate_file_exists`. -/
def validate_file_exists (env : JobEnv) : ValidationResult :=
  if !env.fileExists then
    ⟨"Job file exists", false, "File not found: " ++ env.jobFile, []⟩
  else if strLower env.suffix ≠ ".waj" then
    ⟨"Job file exists", false,
      "Invalid extension: " ++ env.suffix ++ " (expected .waj)", []⟩
  else
    ⟨"Job file exists", true, env.fileName, []⟩

/-- The check `validate_xml_wellformed` (the result component; the parsed root is the
environment's `parseResult`). -/
def validate_xml_wellformed (env : JobEnv) : ValidationResult :=
  match env.parseResult with
  | some _ => ⟨"XML well-formed", true, "", []⟩
  | none => ⟨"XML well-formed", false, env.parseError, []⟩

/-- The check `validate_root_element`. -/
def validate_root_element (root : Xml) : ValidationResult :=
  if root.tag ≠ "Job" then
    ⟨"Job element valid", false, "Expected <Job>, found <" ++ root.tag ++ ">", []⟩
  else
    let name := (root.get "name").getD ""
    let version := (root.get "version").getD ""
    if name = "" then
      ⟨"Job element valid", false, "Missing 'name' attribute on Job element", []⟩
    else
      ⟨"Job element valid", true,
        "name=\"" ++ name ++ "\" version=\"" ++
          (if version = "" then "1.0" else version) ++ "\"",
        if version = "" then
          ["Missing 'version' attribute (defaulting to 1.0)"] else []⟩

/-- The check `validate_project_element`. -/
def validate_project_element (root : Xml) (fs : String → Bool) : ValidationResult :=
  match root.findTag "Project" with
  | none => ⟨"Stationery reference", false, "Missing <Project> element", []⟩
  | some project =>
      let path := (project.get "path").getD ""
      if path = "" then
        ⟨"Stationery reference", false,
          "Missing 'path' attribute on Project element", []⟩
      else if fs path then
        ⟨"Stationery reference", true, "Found: " ++ path, []⟩
      else
        ⟨"Stationery reference", false, "Not found: " ++ path, []⟩

/-- Warnings collected by `validate_files_element`'s group/document loop. -/
def filesWarnings (groups : List Xml) : List String :=
  groups.flatMap fun group =>
    let groupName := (group.get "name").getD "(unnamed)"
    (if (group.get "name").getD "" = "" then ["Group missing 'name' attribute"]
     else []) ++
    (group.findallTag "Document").filterMap fun doc =>
      if (doc.get "path").getD "" = "" then
        some ("Document in '" ++ groupName ++ "' missing 'path' attribute")
      else none

/-- The check `validate_files_element`. -/
def validate_files_element (root : Xml) : ValidationResult :=
  match root.findTag "Files" with
  | none =>
      ⟨"Source documents", true, "(empty)",
        ["Missing <Files> element - no source documents defined"]⟩
  | some files =>
      let groups := files.findallTag "Group"
      if groups.isEmpty then
        ⟨"Source documents", true, "(empty)", ["No <Group> elements found"]⟩
      else
        let totalDocs := (groups.map fun g => (g.findallTag "Document").length).sum
        let ng := groups.length
        ⟨"Source documents", true,
          toString ng ++ " groups, " ++ toString totalDocs ++ " documents",
          filesWarnings groups⟩

/-- The document paths referenced below `<Files>`, in document order; the
empty string stands for a missing `path` attribute, which the loop of
`validate_documents_exist` skips. -/
def docPaths (files : Xml) : List String :=
  (files.findallTag "Group").flatMap fun group =>
    (group.findallTag "Document").map fun doc => (doc.get "path").getD ""

/-- The check `validate_documents_exist`. -/
def validate_documents_exist (root : Xml) (fs : String → Bool) : ValidationResult :=
  match root.findTag "Files" with
  | none => ⟨"Document paths", true, "(no documents)", []⟩
  | some files =>
      let paths := docPaths files
      let missing := paths.filter fun p => p ≠ "" && !fs p
      let found := (paths.filter fun p => p ≠ "" && fs p).length
      let warnings :=
        (missing.take 5).map (fun p => "Not found: " ++ p) ++
        (if missing.length > 5 then
          ["... and " ++ toString (missing.length - 5) ++ " more missing"]
         else [])
      if found > 0 && missing.isEmpty then
        ⟨"Document paths", true, "All " ++ toString found ++ " documents found",
          warnings⟩
      else if found > 0 then
        ⟨"Document paths", true,
          toString found ++ " found, " ++ toString missing.length ++ " missing",
          warnings⟩
      else if !missing.isEmpty then
        ⟨"Document paths", false,
          "All " ++ toString missing.length ++ " documents missing", warnings⟩
      else
        ⟨"Document paths", true, "(no documents)", warnings⟩

/-- The check `validate_targets_element`. -/
def validate_targets_element (root : Xml) : ValidationResult :=
  match root.findTag "Targets" with
  | none => ⟨"Build targets", false, "Missing <Targets> element", []⟩
  | some targets =>
      let targetList := targets.findallTag "Target"
      if targetList.isEmpty then
        ⟨"Build targets", false, "No <Target> elements found", []⟩
      else
        let enabled :=
          (targetList.filter fun t => (t.get "build").getD "True" == "True").length
        let warnings := targetList.flatMap fun target =>
          (if (target.get "name").getD "" = "" then
            ["Target missing 'name' attribute"] else []) ++
          (if (target.get "format").getD "" = "" then
            ["Target '" ++ (target.get "name").getD "?" ++
              "' missing 'format' attribute"] else [])
        ⟨"Build targets", true,
          toString targetList.length ++ " targets (" ++ toString enabled ++
            " enabled)", warnings⟩

/-- The format elements of a stationery document, via the two-phase
namespaced lookup of `validate_target_formats`. -/
def formatElementsOf (stationeryRoot : Xml) : List Xml :=
  let withNs := stationeryRoot.findallDesc (nsTag "Format")
  if withNs.isEmpty then stationeryRoot.iterTag "Format" else withNs

/-- The set `available_formats` of `validate_target_formats`. Python builds a
`set` whose iteration order is unspecified; it is modelled as the
deduplicated name list, which has the same membership. -/
def availableFormats (stationeryRoot : Xml) : List String :=
  ((formatElementsOf stationeryRoot).map fun f => (f.get "Name").getD "").dedup

/-- The check `validate_target_formats`; `statExists` is the `stationery_path.exists()`
probe and `stationeryParse` the outcome of parsing that file. -/
def validate_target_formats (root : Xml) (statExists : Bool)
    (stationeryParse : Option Xml) (statParseError : String) : ValidationResult :=
  if !statExists then
    ⟨"Format names", true, "(skipped)", ["Skipped - Stationery not found"]⟩
  else
    match stationeryParse with
    | none =>
        ⟨"Format names", true, "(skipped)",
          ["Failed to parse Stationery: " ++ statParseError]⟩
    | some stationeryRoot =>
        let avail := availableFormats stationeryRoot
        match root.findTag "Targets" with
        | none => ⟨"Format names", true, "(no targets)", []⟩
        | some targets =>
            let targetList := targets.findallTag "Target"
            let invalid := (targetList.map fun t => (t.get "format").getD "").filter
              fun f => !avail.contains f
            let valid := ((targetList.map fun t => (t.get "format").getD "").filter
              fun f => avail.contains f).length
            let warnings :=
              if invalid.isEmpty then []
              else
                invalid.map (fun f => "Format not in Stationery: " ++ f) ++
                ["Available: " ++ String.intercalate ", " avail]
            if valid > 0 && invalid.isEmpty then
              ⟨"Format names", true, "All " ++ toString valid ++ " formats valid",
                warnings⟩
            else if valid > 0 then
              ⟨"Format names", true,
                toString valid ++ " valid, " ++ toString invalid.length ++
                  " invalid", warnings⟩
            else
              ⟨"Format names", false, "No valid formats", warnings⟩

/-- The stationery reference string `project.get('path', '')` that `main`
resolves for the optional format check; `none` when there is no `<Project>`
element (the source then probes `Path()`, i.e. the current directory). -/
def stationeryRef (root : Xml) : Option String :=
  match root.findTag "Project" with
  | some project => some ((project.get "path").getD "")
  | none => none

/-- The function `main` of `validate-job.py`: the ordered list of produced
`ValidationResult`s and the exit code. Checks 1 and 2 abort the run early;
checks 3–8 all execute, merely clearing `all_passed` on failure. -/
def validateJobMain (env : JobEnv) : List ValidationResult × Int :=
  let r1 := validate_file_exists env
  if !r1.passed then ([r1], EXIT_FILE_ERROR)
  else
    match env.parseResult with
    | none => ([r1, validate_xml_wellformed env], EXIT_VALIDATION_FAILED)
    | some root =>
        let r2 := validate_xml_wellformed env
        let r3 := validate_root_element root
        let r4 := validate_project_element root env.fs
        let statExists :=
          match stationeryRef root with
          | some path => env.fs path
          | none => true
        let r5 := validate_files_element root
        let rs6 := if env.checkDocuments then [validate_documents_exist root env.fs]
          else []
        let r7 := validate_targets_element root
        let rs8 := if env.checkStationery then
            [validate_target_formats root statExists env.stationeryParse
              env.stationeryParseError]
          else []
        let results := r1 :: r2 :: r3 :: r4 :: r5 :: (rs6 ++ r7 :: rs8)
        (results,
          if results.all (·.passed) then EXIT_SUCCESS else EXIT_VALIDATION_FAILED)

lemma name_root_element (root : Xml) :
    (validate_root_element root).name = "Job element valid" := by
  unfold validate_root_element
  dsimp only
  repeat' split
  all_goals rfl

lemma name_project_element (root : Xml) (fs : String → Bool) :
    (validate_project_element root fs).name = "Stationery reference" := by
  unfold validate_project_element
  dsimp only
  repeat' split
  all_goals rfl

lemma name_files_element (root : Xml) :
    (validate_files_element root).name = "Source documents" := by
  unfold validate_files_element
  dsimp only
  repeat' split
  all_goals rfl

lemma name_documents_exist (root : Xml) (fs : String → Bool) :
    (validate_documents_exist root fs).name = "Document paths" := by
  unfold validate_documents_exist
  dsimp only
  repeat' split
  all_goals rfl

lemma name_targets_element (root : Xml) :
    (validate_targets_element root).name = "Build targets" := by
  unfold validate_targets_element
  dsimp only
  repeat' split
  all_goals rfl

lemma name_target_formats (root : Xml) (statExists : Bool)
    (stationeryParse : Option Xml) (err : String) :
    (validate_target_formats root statExists stationeryParse err).name =
      "Format names" := by
  unfold validate_target_formats
  dsimp only
  repeat' split
  all_goals rfl

lemma verdict_iff (L : List ValidationResult) :
    ((if (L.all fun x => x.passed) = true then EXIT_SUCCESS
      else EXIT_VALIDATION_FAILED) = EXIT_SUCCESS) ↔
      ∀ r ∈ L, r.passed = true := by
  constructor
  · intro h
    by_cases hall : (L.all fun x => x.passed) = true
    · intro r hr
      simpa using List.all_eq_true.mp hall r hr
    · rw [if_neg hall] at h
      exact absurd h (by decide)
  · intro h
    rw [if_pos (List.all_eq_true.mpr fun r hr => by simpa using h r hr)]

/-- C4: when the job file exists with a `.waj` suffix and parses as
well-formed XML, `validate-job.py` runs every non-optional check and every
flag-enabled optional check — each contributing exactly one
`ValidationResult`, in a fixed order, regardless of earlier failures — and
exits with success exactly when every executed check passed; warnings play no
role in the verdict. -/
theorem crossvalidator_runs_all_checks (env : JobEnv) (root : Xml)
    (hex : env.fileExists = true) (hsuf : strLower env.suffix = ".waj")
    (hparse : env.parseResult = some root) :
    ((validateJobMain env).1.map (·.name) =
      ["Job file exists", "XML well-formed", "Job element valid",
        "Stationery reference", "Source documents"] ++
      (if env.checkDocuments then ["Document paths"] else []) ++
      ["Build targets"] ++
      (if env.checkStationery then ["Format names"] else [])) ∧
    ((validateJobMain env).2 = EXIT_SUCCESS ↔
      ∀ r ∈ (validateJobMain env).1, r.passed = true) := by
  have h1 : validate_file_exists env = ⟨"Job file exists", true, env.fileName, []⟩ := by
    unfold validate_file_exists
    rw [hex, hsuf]
    simp
  have h2 : validate_xml_wellformed env = ⟨"XML well-formed", true, "", []⟩ := by
    unfold validate_xml_wellformed
    rw [hparse]
  have hrun : validateJobMain env =
      (⟨"Job file exists", true, env.fileName, []⟩ ::
        ⟨"XML well-formed", true, "", []⟩ ::
        validate_root_element root ::
        validate_project_element root env.fs ::
        validate_files_element root ::
        ((if env.checkDocuments then [validate_documents_exist root env.fs]
          else []) ++
          validate_targets_element root ::
          (if env.checkStationery then
            [validate_target_formats root
              (match stationeryRef root with
               | some path => env.fs path
               | none => true) env.stationeryParse env.stationeryParseError]
          else [])),
        if ((⟨"Job file exists", true, env.fileName, []⟩ :
              ValidationResult) ::
            (⟨"XML well-formed", true, "", []⟩ : ValidationResult) ::
            validate_root_element root ::
            validate_project_element root env.fs ::
            validate_files_element root ::
            ((if env.checkDocuments then [validate_documents_exist root env.fs]
              else []) ++
              validate_targets_element root ::
              (if env.checkStationery then
                [validate_target_formats root
                  (match stationeryRef root with
                   | some path => env.fs path
                   | none => true) env.stationeryParse env.stationeryParseError]
              else []))).all (·.passed)
        then EXIT_SUCCESS else EXIT_VALIDATION_FAILED) := by
    unfold validateJobMain
    rw [h1, h2, hparse]
    dsimp only
    rw [if_neg (by decide)]
  rw [hrun]
  constructor
  · cases env.checkDocuments <;> cases env.checkStationery <;>
      simp [name_root_element, name_project_element, name_files_element,
        name_documents_exist, name_targets_element, name_target_formats]
  · exact verdict_iff _

/-- A small valid job descriptor used to instantiate the validator claims. -/
def jobRootW : Xml :=
  Xml.elem "Job" [("name", "en"), ("version", "1.0")] none
    [Xml.elem "Project" [("path", "s.wxsp")] none [],
     Xml.elem "Files" [] none
       [Xml.elem "Group" [("name", "Main")] none
         [Xml.elem "Document" [("path", "a.md")] none []]],
     Xml.elem "Targets" [] none
       [Xml.elem "Target" [("name", "T"), ("format", "F")] none []]]

/-- A fully-flagged validator environment over `jobRootW`. -/
def jobEnvW : JobEnv :=
  { jobFile := "job.waj"
    fileName := "job.waj"
    suffix := ".waj"
    fileExists := true
    parseResult := some jobRootW
    parseError := ""
    fs := fun _ => true
    stationeryParse := none
    stationeryParseError := "boom"
    checkDocuments := true
    checkStationery := true }

/-- C4 instantiation: with both optional checks enabled on a parseable file,
all eight checks run, in order, and the verdict is the conjunction of their
`passed` flags. -/
theorem crossvalidator_runs_all_checks_witness :
    ((validateJobMain jobEnvW).1.map (·.name) =
      ["Job file exists", "XML well-formed", "Job element valid",
        "Stationery reference", "Source documents", "Document paths",
        "Build targets", "Format names"]) ∧
    ((validateJobMain jobEnvW).2 = EXIT_SUCCESS ↔
      ∀ r ∈ (validateJobMain jobEnvW).1, r.passed = true) := by
  have h := crossvalidator_runs_all_checks jobEnvW jobRootW (by rfl) (by rfl) (by rfl)
  exact ⟨by simpa using h.1, h.2⟩

/-! ## Document-existence check characterization (C5) -/

/-- The referenced document paths of a job descriptor: every non-empty
`path` attribute of a `<Document>` below `<Files>`. -/
def referencedDocs (root : Xml) : List String :=
  match root.findTag "Files" with
  | none => []
  | some files => (docPaths files).filter fun p => p ≠ ""

/-- The referenced documents the filesystem oracle cannot resolve. -/
def missingDocs (root : Xml) (fs : String → Bool) : List String :=
  (referencedDocs root).filter fun p => !fs p

/-- The number of referenced documents that resolve on disk. -/
def foundCount (root : Xml) (fs : String → Bool) : Nat :=
  ((referencedDocs root).filter fun p => fs p).length

/-- C5: the document-existence check passes exactly when some referenced
document resolves or none is missing; its warnings name at most the first 5
missing paths individually and summarize the remainder by count. -/
theorem document_check_partial_pass (root : Xml) (fs : String → Bool) :
    ((validate_documents_exist root fs).passed = true ↔
      0 < foundCount root fs ∨ missingDocs root fs = []) ∧
    (validate_documents_exist root fs).warnings =
      ((missingDocs root fs).take 5).map (fun p => "Not found: " ++ p) ++
      (if (missingDocs root fs).length > 5 then
        ["... and " ++ toString ((missingDocs root fs).length - 5) ++
          " more missing"]
       else []) := by
  unfold validate_documents_exist
  cases hf : root.findTag "Files" with
  | none =>
      have hrefl : referencedDocs root = [] := by
        unfold referencedDocs
        rw [hf]
      simp [missingDocs, foundCount, hrefl]
  | some files =>
      have href : referencedDocs root
          = (docPaths files).filter (fun p => decide (p ≠ "")) := by
        unfold referencedDocs
        rw [hf]
      have hm : ((docPaths files).filter fun p => decide (p ≠ "") && !fs p)
          = missingDocs root fs := by
        unfold missingDocs
        rw [href, List.filter_filter]
        apply List.filter_congr
        intro a _
        exact Bool.and_comm _ _
      have hfd : ((docPaths files).filter fun p => decide (p ≠ "") && fs p).length
          = foundCount root fs := by
        unfold foundCount
        rw [href, List.filter_filter]
        refine congrArg List.length ?_
        apply List.filter_congr
        intro a _
        exact Bool.and_comm _ _
      dsimp only
      rw [hm, hfd]
      split
      · rename_i h
        rw [Bool.and_eq_true] at h
        simp only [decide_eq_true_eq] at h
        exact ⟨iff_of_true rfl (Or.inl h.1), rfl⟩
      · split
        · rename_i h2
          exact ⟨iff_of_true rfl (Or.inl h2), rfl⟩
        · split
          · rename_i h1 h2 h3
            refine ⟨iff_of_false (by simp) ?_, rfl⟩
            rintro (hpos | hnil)
            · exact h2 hpos
            · rw [hnil] at h3
              simp at h3
          · rename_i h1 h2 h3
            refine ⟨iff_of_true rfl (Or.inr ?_), rfl⟩
            have hempty : (missingDocs root fs).isEmpty = true := by simpa using h3
            exact List.isEmpty_iff.mp hempty

/-! ## Format-name check characterization (C6) -/

lemma length_filter_pos_iff_any {α : Type} (l : List α) (p : α → Bool) :
    0 < (l.filter p).length ↔ l.any p = true := by
  constructor
  · intro h
    obtain ⟨x, hx⟩ := List.exists_mem_of_length_pos h
    rcases List.mem_filter.mp hx with ⟨hm, hp⟩
    exact List.any_eq_true.mpr ⟨x, hm, hp⟩
  · intro h
    obtain ⟨x, hm, hp⟩ := List.any_eq_true.mp h
    exact List.length_pos_of_mem (List.mem_filter.mpr ⟨hm, hp⟩)

/-- C6: with a loadable capability descriptor, the format-validation check
passes exactly when some target format matches an available format name; each
mismatching value is named in a warning, a further warning lists every valid
name, and `availableFormats` holds exactly the `Name` attributes of the
capability descriptor's format elements. -/
theorem format_check_names_and_verdict (root sroot tEl : Xml) (err : String)
    (ht : root.findTag "Targets" = some tEl) :
    ((validate_target_formats root true (some sroot) err).passed = true ↔
      (((tEl.findallTag "Target").map fun t => (t.get "format").getD "").any
        fun f => (availableFormats sroot).contains f) = true) ∧
    (∀ f ∈ (tEl.findallTag "Target").map fun t => (t.get "format").getD "",
      (availableFormats sroot).contains f = false →
        ("Format not in Stationery: " ++ f) ∈
          (validate_target_formats root true (some sroot) err).warnings) ∧
    ((∃ f ∈ (tEl.findallTag "Target").map fun t => (t.get "format").getD "",
        (availableFormats sroot).contains f = false) →
      ("Available: " ++ String.intercalate ", " (availableFormats sroot)) ∈
        (validate_target_formats root true (some sroot) err).warnings) ∧
    (∀ n, n ∈ availableFormats sroot ↔
      n ∈ (formatElementsOf sroot).map fun fe => (fe.get "Name").getD "") := by
  have hmem : ∀ n, n ∈ availableFormats sroot ↔
      n ∈ (formatElementsOf sroot).map fun fe => (fe.get "Name").getD "" :=
    fun n => List.mem_dedup
  unfold validate_target_formats
  rw [if_neg (by decide)]
  dsimp only
  rw [ht]
  dsimp only
  refine ⟨?_, ?_, ?_, hmem⟩
  · split
    · rename_i h
      rw [Bool.and_eq_true, decide_eq_true_eq] at h
      exact iff_of_true rfl ((length_filter_pos_iff_any _ _).mp h.1)
    · split
      · rename_i h2
        exact iff_of_true rfl ((length_filter_pos_iff_any _ _).mp h2)
      · rename_i h1 h2
        exact iff_of_false (by simp) fun hany =>
          h2 ((length_filter_pos_iff_any _ _).mpr hany)
  · intro f hf hc
    have hfinv : f ∈ ((tEl.findallTag "Target").map fun t =>
        (t.get "format").getD "").filter
          fun f => !(availableFormats sroot).contains f :=
      List.mem_filter.mpr ⟨hf, by rw [hc]; rfl⟩
    have hne : ¬ ((((tEl.findallTag "Target").map fun t =>
        (t.get "format").getD "").filter
          fun f => !(availableFormats sroot).contains f).isEmpty = true) := by
      intro hemp
      rw [List.isEmpty_iff] at hemp
      exact List.ne_nil_of_mem hfinv hemp
    split <;>
      · try dsimp only
        try rw [if_neg hne]
        try rw [apply_ite ValidationResult.warnings, ite_self]
        try dsimp only
        exact List.mem_append_left _ (List.mem_map.mpr ⟨f, hfinv, rfl⟩)
  · rintro ⟨f, hf, hc⟩
    have hfinv : f ∈ ((tEl.findallTag "Target").map fun t =>
        (t.get "format").getD "").filter
          fun f => !(availableFormats sroot).contains f :=
      List.mem_filter.mpr ⟨hf, by rw [hc]; rfl⟩
    have hne : ¬ ((((tEl.findallTag "Target").map fun t =>
        (t.get "format").getD "").filter
          fun f => !(availableFormats sroot).contains f).isEmpty = true) := by
      intro hemp
      rw [List.isEmpty_iff] at hemp
      exact List.ne_nil_of_mem hfinv hemp
    split <;>
      · try dsimp only
        try rw [if_neg hne]
        try rw [apply_ite ValidationResult.warnings, ite_self]
        try dsimp only
        exact List.mem_append_right _ (List.mem_singleton.mpr rfl)

/-- C6 instantiation (the spec's example): formats Alpha and Beta, a single
target with format Gamma — the check fails, names Gamma, and lists Alpha and
Beta. -/
theorem format_check_names_and_verdict_witness :
    ((validate_target_formats
        (Xml.elem "Job" [] none
          [Xml.elem "Targets" [] none
            [Xml.elem "Target" [("name", "T"), ("format", "Gamma")] none []]])
        true
        (some (Xml.elem "Project" [] none
          [Xml.elem "Format" [("Name", "Alpha")] none [],
           Xml.elem "Format" [("Name", "Beta")] none []]))
        "").passed = false) ∧
    ("Format not in Stationery: Gamma" ∈
      (validate_target_formats
        (Xml.elem "Job" [] none
          [Xml.elem "Targets" [] none
            [Xml.elem "Target" [("name", "T"), ("format", "Gamma")] none []]])
        true
        (some (Xml.elem "Project" [] none
          [Xml.elem "Format" [("Name", "Alpha")] none [],
           Xml.elem "Format" [("Name", "Beta")] none []]))
        "").warnings) ∧
    ("Available: Alpha, Beta" ∈
      (validate_target_formats
        (Xml.elem "Job" [] none
          [Xml.elem "Targets" [] none
            [Xml.elem "Target" [("name", "T"), ("format", "Gamma")] none []]])
        true
        (some (Xml.elem "Project" [] none
          [Xml.elem "Format" [("Name", "Alpha")] none [],
           Xml.elem "Format" [("Name", "Beta")] none []]))
        "").warnings) := by
  have h := format_check_names_and_verdict
    (Xml.elem "Job" [] none
      [Xml.elem "Targets" [] none
        [Xml.elem "Target" [("name", "T"), ("format", "Gamma")] none []]])
    (Xml.elem "Project" [] none
      [Xml.elem "Format" [("Name", "Alpha")] none [],
       Xml.elem "Format" [("Name", "Beta")] none []])
    (Xml.elem "Targets" [] none
      [Xml.elem "Target" [("name", "T"), ("format", "Gamma")] none []])
    "" (by rfl)
  have hfm : formatElementsOf
      (Xml.elem "Project" [] none
        [Xml.elem "Format" [("Name", "Alpha")] none [],
         Xml.elem "Format" [("Name", "Beta")] none []]) =
      [Xml.elem "Format" [("Name", "Alpha")] none [],
       Xml.elem "Format" [("Name", "Beta")] none []] := by
    unfold formatElementsOf Xml.findallDesc
    simp [iterChildren, Xml.iterAll, Xml.iterTag, Xml.findallTag, nsTag]
  have havail : availableFormats
      (Xml.elem "Project" [] none
        [Xml.elem "Format" [("Name", "Alpha")] none [],
         Xml.elem "Format" [("Name", "Beta")] none []]) = ["Alpha", "Beta"] := by
    unfold availableFormats
    rw [hfm]
    decide
  refine ⟨?_, ?_, ?_⟩
  · rw [Bool.eq_false_iff]
    intro hp
    have hany := h.1.mp hp
    rw [havail] at hany
    exact absurd hany (by decide)
  · have hmem := h.2.1 "Gamma" (by decide) (by rw [havail]; decide)
    simpa using hmem
  · have hmem := h.2.2.1 ⟨"Gamma", by decide, by rw [havail]; decide⟩
    rw [havail] at hmem
    simpa using hmem

/-! ## Job compilation — `create-job.py`

The webworks-claude-skills copy validates the configuration, guards the
output path against traversal and writes atomically; the epublisher-automation
copy of the same script performs none of those steps. Both config-file-mode
pipelines are embedded below. Filesystem writes are surfaced as explicit
event lists; paths are segment lists, with the working directory assumed
canonical (absolute, no `.`/`..`, symlinks out of scope). -/

/-- Python `str.strip()`: drop leading and trailing whitespace. -/
def pyStrip (s : String) : String :=
  ⟨((s.data.dropWhile Char.isWhitespace).reverse.dropWhile
      Char.isWhitespace).reverse⟩

/-- The function `validate_config` (webworks copy): every violation, in source order. -/
def validate_config (config : Config) : List String :=
  (if pyStrip config.name = "" then ["Job name cannot be empty"] else []) ++
  (if pyStrip config.stationery = "" then ["Stationery path cannot be empty"]
   else []) ++
  (if config.targets.isEmpty then ["At least one target is required"] else []) ++
  (config.targets.enum.flatMap fun it =>
    (if pyStrip it.2.name = "" then
      ["Target " ++ toString (it.1 + 1) ++ " name cannot be empty"] else []) ++
    (if pyStrip it.2.format = "" then
      ["Target " ++ toString (it.1 + 1) ++ " format cannot be empty"] else [])) ++
  (config.groups.enum.flatMap fun ig =>
    if pyStrip ig.2.name = "" then
      ["Group " ++ toString (ig.1 + 1) ++ " name cannot be empty"] else [])

/-- POSIX resolution of an absolute path given as segments: `.` and empty
segments vanish, `..` pops (and is a no-op at the root). -/
def resolveSegs (segs : List String) : List String :=
  segs.foldl
    (fun acc seg =>
      if seg = "." ∨ seg = "" then acc
      else if seg = ".." then acc.dropLast
      else acc ++ [seg])
    []

/-- The function `validate_safe_path(base_dir, user_path)`: resolve against the base and
require the result to stay below it (`Path.relative_to` succeeds exactly on
descendants, the base itself included). -/
def validate_safe_path (base : List String) (userPath : List String) :
    Except String (List String) :=
  let full := resolveSegs (base ++ userPath)
  if base.isPrefixOf full then .ok full
  else .error ("Path traversal attempt detected: " ++
    String.intercalate "/" userPath)

/-- Observable filesystem mutations of the write phase. -/
inductive FsEvent where
  | mkstempEv
  | writeTempEv
  | renameEv
  | openWriteEv
deriving Repr, DecidableEq

/-- The mutation trace of one successful `write_file_atomic` call: create the
temporary file in the destination directory, write/flush/fsync it, rename it
over the destination. -/
def write_file_atomic_events : List FsEvent :=
  [.mkstempEv, .writeTempEv, .renameEv]

/-- Outcome of one config-file-mode `create-job.py` run. -/
structure CreateJobRun where
  exit : Int
  loggedErrors : List String
  serialized : Option Xml
  written : Option (List String)
  events : List FsEvent

/-- Config-file mode of `main` in the webworks-claude-skills copy: validate
(aborting with the full violation list before any serialization), optionally
confirm, check the output path against the working directory, then write
atomically. `outputArg` is `--output` (as path segments), `noPreview`/`yes`
the corresponding flags and `confirmAnswer` the operator's reply when the
preview confirmation is reached. -/
def mainConfigWebworks (config : Config) (cwd : List String)
    (outputArg : Option (List String)) (noPreview yes confirmAnswer : Bool) :
    CreateJobRun :=
  let errors := validate_config config
  if !errors.isEmpty then
    { exit := EXIT_VALIDATION_ERROR, loggedErrors := errors, serialized := none,
      written := none, events := [] }
  else
    let xml := generate_job_xml config
    if !noPreview && !yes && !confirmAnswer then
      { exit := EXIT_CANCELLED, loggedErrors := [], serialized := some xml,
        written := none, events := [] }
    else
      let outputPath := outputArg.getD [config.name ++ ".waj"]
      match validate_safe_path cwd outputPath with
      | .error e =>
          { exit := EXIT_VALIDATION_ERROR, loggedErrors := [e],
            serialized := some xml, written := none, events := [] }
      | .ok full =>
          { exit := EXIT_SUCCESS, loggedErrors := [], serialized := some xml,
            written := some full, events := write_file_atomic_events }

/-- Config-file mode of `main` in the epublisher-automation copy: no
validation, no path check, a plain `open(...).write`. -/
def mainConfigEpub (config : Config) (outputArg : Option String)
    (noPreview yes confirmAnswer : Bool) : CreateJobRun :=
  let xml := generate_job_xml config
  if !noPreview && !yes && !confirmAnswer then
    { exit := EXIT_CANCELLED, loggedErrors := [], serialized := some xml,
      written := none, events := [] }
  else
    let outputPath := outputArg.getD (config.name ++ ".waj")
    { exit := EXIT_SUCCESS, loggedErrors := [], serialized := some xml,
      written := some [outputPath], events := [.openWriteEv] }


/-! ## Claim theorems: compile-time validation (C2) and path traversal (C7) -/

/-- C2 (code bug in the epublisher-automation copy): on a configuration with
an empty name, empty stationery path and empty target list, `validate_config`
aggregates all three violations — "At least one target is required" among
them — and the webworks-claude-skills config pipeline stops with exit 3
before serializing or writing; the epublisher-automation copy of the same
script runs no validation at all and writes the job file with exit 0. -/
theorem epub_create_job_skips_validation :
    validate_config ⟨"", "1.0", "", [], []⟩ =
      ["Job name cannot be empty", "Stationery path cannot be empty",
       "At least one target is required"] ∧
    (mainConfigWebworks ⟨"", "1.0", "", [], []⟩ ["home"] (some ["out.waj"])
        false true true).exit = EXIT_VALIDATION_ERROR ∧
    (mainConfigWebworks ⟨"", "1.0", "", [], []⟩ ["home"] (some ["out.waj"])
        false true true).loggedErrors =
      ["Job name cannot be empty", "Stationery path cannot be empty",
       "At least one target is required"] ∧
    (mainConfigWebworks ⟨"", "1.0", "", [], []⟩ ["home"] (some ["out.waj"])
        false true true).serialized = none ∧
    (mainConfigWebworks ⟨"", "1.0", "", [], []⟩ ["home"] (some ["out.waj"])
        false true true).written = none ∧
    (mainConfigWebworks ⟨"", "1.0", "", [], []⟩ ["home"] (some ["out.waj"])
        false true true).events = [] ∧
    (mainConfigEpub ⟨"", "1.0", "", [], []⟩ (some "out.waj")
        false true true).exit = EXIT_SUCCESS ∧
    (mainConfigEpub ⟨"", "1.0", "", [], []⟩ (some "out.waj")
        false true true).written = some ["out.waj"] ∧
    (mainConfigEpub ⟨"", "1.0", "", [], []⟩ (some "out.waj")
        false true true).events = [FsEvent.openWriteEv] := by
  exact ⟨rfl, rfl, rfl, rfl, rfl, rfl, rfl, rfl, rfl⟩

/-- C7: whenever the output path's resolution against the working directory
escapes it, `validate_safe_path` raises the path-traversal error and the
webworks-claude-skills config pipeline exits with the validation code, having
written nothing — no destination file and no temporary file. -/
theorem safe_writer_rejects_escaping_path (config : Config) (cwd : List String)
    (outputArg : Option (List String)) (noPreview confirmAnswer : Bool)
    (hval : validate_config config = [])
    (hesc : cwd.isPrefixOf
      (resolveSegs (cwd ++ outputArg.getD [config.name ++ ".waj"])) = false) :
    validate_safe_path cwd (outputArg.getD [config.name ++ ".waj"]) =
      .error ("Path traversal attempt detected: " ++
        String.intercalate "/" (outputArg.getD [config.name ++ ".waj"])) ∧
    (mainConfigWebworks config cwd outputArg noPreview true confirmAnswer).exit =
      EXIT_VALIDATION_ERROR ∧
    (mainConfigWebworks config cwd outputArg noPreview true
      confirmAnswer).written = none ∧
    (mainConfigWebworks config cwd outputArg noPreview true
      confirmAnswer).events = [] := by
  have hvsp : validate_safe_path cwd (outputArg.getD [config.name ++ ".waj"]) =
      .error ("Path traversal attempt detected: " ++
        String.intercalate "/" (outputArg.getD [config.name ++ ".waj"])) := by
    unfold validate_safe_path
    dsimp only
    rw [hesc]
    rfl
  refine ⟨hvsp, ?_⟩
  unfold mainConfigWebworks
  rw [hval]
  dsimp only
  rw [if_neg (by decide)]
  rw [show (!noPreview && !true && !confirmAnswer) = false by
    simp]
  rw [if_neg (by decide)]
  rw [hvsp]
  exact ⟨rfl, rfl, rfl⟩

/-- C7 instantiation: a `..`-laden relative output path escaping the working
directory is rejected without any filesystem event. -/
theorem safe_writer_rejects_escaping_path_witness :
    validate_safe_path ["home", "user"] ["..", "..", "etc", "pwn.waj"] =
      .error "Path traversal attempt detected: ../../etc/pwn.waj" ∧
    (mainConfigWebworks
      ⟨"j", "1.0", "s.wxsp", [],
        [⟨"t", "F", "Application", true, false, "", [], [], []⟩]⟩
      ["home", "user"] (some ["..", "..", "etc", "pwn.waj"]) false true
      false).exit = EXIT_VALIDATION_ERROR ∧
    (mainConfigWebworks
      ⟨"j", "1.0", "s.wxsp", [],
        [⟨"t", "F", "Application", true, false, "", [], [], []⟩]⟩
      ["home", "user"] (some ["..", "..", "etc", "pwn.waj"]) false true
      false).written = none ∧
    (mainConfigWebworks
      ⟨"j", "1.0", "s.wxsp", [],
        [⟨"t", "F", "Application", true, false, "", [], [], []⟩]⟩
      ["home", "user"] (some ["..", "..", "etc", "pwn.waj"]) false true
      false).events = [] := by
  have h := safe_writer_rejects_escaping_path
    ⟨"j", "1.0", "s.wxsp", [],
      [⟨"t", "F", "Application", true, false, "", [], [], []⟩]⟩
    ["home", "user"] (some ["..", "..", "etc", "pwn.waj"]) false false
    (by decide) (by decide)
  exact ⟨h.1, h.2.1, h.2.2.1, h.2.2.2⟩


/-! ## Safe Writer atomicity — `write_file_atomic` (C8)

The call is modelled as the sequence of filesystem states it passes through:
`mkstemp` creates one empty temporary file in the destination directory, the
single `f.write` advances the temporary file through the prefixes of the
content (`flush`/`os.fsync` change no content, they only persist it), and
`os.replace` atomically installs the full content as the destination while
removing the temporary name. The `except` branch (`os.unlink` then re-raise)
is `cleanupTemp`. -/

/-- Contents of the destination file and of the temporary files present
during one `write_file_atomic` call; `dest = none` means the destination does
not exist. -/
structure FileState where
  dest : Option String
  temps : List String
deriving Repr, DecidableEq

/-- The prefix of a string's first `n` characters. -/
def strTake (s : String) (n : Nat) : String :=
  ⟨s.data.take n⟩

/-- The successive filesystem states of one `write_file_atomic` call. -/
def write_file_atomic_states (old : Option String) (content : String) :
    List FileState :=
  ⟨old, []⟩ ::
  ((List.range (content.length + 1)).map fun i => ⟨old, [strTake content i]⟩) ++
  [⟨some content, []⟩]

/-- The `except` cleanup: unlink the temporary file; the destination is
untouched and the exception propagates. -/
def cleanupTemp (s : FileState) : FileState :=
  ⟨s.dest, []⟩

lemma string_take_length (s : String) : strTake s s.length = s := by
  cases s with
  | mk data => simp [strTake, String.length]

/-- C8: at every point of a `write_file_atomic` run the destination holds
either its prior content or the complete new content and at most one
temporary artifact exists; before the rename the destination is exactly the
prior content and the exception cleanup leaves only it behind; the fully
written temporary file is reached before the rename, and the final state is
the new content with no temporary left. -/
theorem atomic_write_integrity (old : Option String) (content : String) :
    (∀ s ∈ write_file_atomic_states old content,
      (s.dest = old ∨ s.dest = some content) ∧ s.temps.length ≤ 1) ∧
    (∀ s ∈ (write_file_atomic_states old content).dropLast,
      s.dest = old ∧ cleanupTemp s = ⟨old, []⟩) ∧
    (⟨old, [content]⟩ : FileState) ∈ write_file_atomic_states old content ∧
    (write_file_atomic_states old content).getLast? =
      some ⟨some content, []⟩ := by
  refine ⟨?_, ?_, ?_, ?_⟩
  · intro s hs
    rcases List.mem_cons.mp hs with rfl | hs'
    · exact ⟨Or.inl rfl, by simp⟩
    · rcases List.mem_append.mp hs' with hmap | hlast
      · obtain ⟨i, _, rfl⟩ := List.mem_map.mp hmap
        exact ⟨Or.inl rfl, by simp⟩
      · rw [List.mem_singleton] at hlast
        subst hlast
        exact ⟨Or.inr rfl, by simp⟩
  · intro s hs
    have hd : (write_file_atomic_states old content).dropLast =
        ⟨old, []⟩ ::
          ((List.range (content.length + 1)).map fun i =>
            ⟨old, [strTake content i]⟩) := by
      show (((⟨old, []⟩ : FileState) ::
        ((List.range (content.length + 1)).map fun i =>
          (⟨old, [strTake content i]⟩ : FileState))) ++
        [(⟨some content, []⟩ : FileState)]).dropLast = _
      rw [List.dropLast_concat]
    rw [hd] at hs
    rcases List.mem_cons.mp hs with rfl | hmap
    · exact ⟨rfl, rfl⟩
    · obtain ⟨i, _, rfl⟩ := List.mem_map.mp hmap
      exact ⟨rfl, rfl⟩
  · refine List.mem_cons_of_mem _ (List.mem_append_left _ (List.mem_map.mpr
      ⟨content.length, List.mem_range.mpr (by omega), ?_⟩))
    rw [string_take_length]
  · show (((⟨old, []⟩ : FileState) ::
      ((List.range (content.length + 1)).map fun i =>
        (⟨old, [strTake content i]⟩ : FileState))) ++
      [(⟨some content, []⟩ : FileState)]).getLast? = _
    exact List.getLast?_concat _

/-- C8 instantiation: the mid-write state holding the one-character prefix of
the new content is reachable, keeps the prior destination intact and carries
a single temporary artifact. -/
theorem atomic_write_integrity_witness :
    ((⟨some "prior", ["n"]⟩ : FileState).dest = some "prior" ∨
      (⟨some "prior", ["n"]⟩ : FileState).dest = some "new") ∧
    (⟨some "prior", ["n"]⟩ : FileState).temps.length ≤ 1 :=
  (atomic_write_integrity (some "prior") "new").1
    ⟨some "prior", ["n"]⟩ (by decide)

/-! ## Capability Descriptor Reader — `parse-stationery.py` (C9) -/

/-- A pair `{'name': ..., 'defaultValue': ...}` of one FormatSetting element. -/
structure FormatSetting where
  name : String
  defaultValue : String
deriving Repr, DecidableEq

/-- One entry of the list `extract_formats` returns. -/
structure FormatDesc where
  name : String
  targetName : String
  type : String
  targetId : String
  outputDirectory : String
  settings : List FormatSetting
deriving Repr, DecidableEq

/-- The settings parsed from one `FormatConfiguration` element (two-phase
namespaced lookups of `FormatSettings` and its `FormatSetting` children). -/
def settingsOfConfig (config : Xml) : List FormatSetting :=
  match config.findNs "FormatSettings" with
  | none => []
  | some fsElem => (fsElem.findallNs "FormatSetting").map fun st =>
      ⟨st.getD "Name" "", st.getD "Value" ""⟩

/-- The `FormatConfiguration` elements, via the two-phase lookup. -/
def formatConfigsOf (root : Xml) : List Xml :=
  let withNs := root.findallDesc (nsTag "FormatConfiguration")
  if withNs.isEmpty then root.iterTag "FormatConfiguration" else withNs

/-- The `settings_map` dictionary: fold over the configuration elements,
skipping empty `TargetID`s; a later assignment to the same key overwrites the
earlier one, exactly as `settings_map[target_id] = settings` does. -/
def settings_map (configs : List Xml) : String → Option (List FormatSetting) :=
  configs.foldl
    (fun m config =>
      let tid := config.getD "TargetID" ""
      if tid ≠ "" then
        fun k => if k = tid then some (settingsOfConfig config) else m k
      else m)
    (fun _ => none)

/-- The per-`Format`-element body of `extract_formats`: attributes with their
`'Unknown'` defaults, the optional `OutputDirectory` child (used only when
its text is non-empty, else the derived `Output\<TargetName>`), and the
settings looked up by `TargetID` with an empty-list default. -/
def mkFormat (m : String → Option (List FormatSetting)) (fe : Xml) :
    FormatDesc :=
  let tid := fe.getD "TargetID" ""
  let targetName := fe.getD "TargetName" "Unknown"
  { name := fe.getD "Name" "Unknown"
    targetName := targetName
    type := fe.getD "Type" "Unknown"
    targetId := tid
    outputDirectory :=
      match fe.findNs "OutputDirectory" with
      | some od =>
          match od.txt with
          | some txtv =>
              if txtv ≠ "" then txtv else "Output\\" ++ targetName
          | none => "Output\\" ++ targetName
      | none => "Output\\" ++ targetName
    settings := (m tid).getD [] }

/-- The function `extract_formats(root)` of `parse-stationery.py`. -/
def extract_formats (root : Xml) : List FormatDesc :=
  (formatElementsOf root).map (mkFormat (settings_map (formatConfigsOf root)))

lemma settings_map_append_singleton (l : List Xml) (a : Xml) :
    settings_map (l ++ [a]) =
      (let tid := a.getD "TargetID" ""
       if tid ≠ "" then
         fun k => if k = tid then some (settingsOfConfig a)
           else settings_map l k
       else settings_map l) := by
  unfold settings_map
  rw [List.foldl_append]
  rfl

/-- C9: the settings map retains, for each non-empty `TargetID`, the settings
of the last-parsed `FormatConfiguration` carrying it (earlier groups are
silently overwritten); and a format whose `TargetID` is absent from the map
receives an empty settings list, never an error. -/
theorem duplicate_targetid_last_wins :
    (∀ (configs : List Xml) (tid : String), tid ≠ "" →
      settings_map configs tid =
        ((configs.filter fun c => c.getD "TargetID" "" == tid).getLast?).map
          settingsOfConfig) ∧
    (∀ (root : Xml), ∀ fd ∈ extract_formats root,
      settings_map (formatConfigsOf root) fd.targetId = none →
      fd.settings = []) := by
  constructor
  · intro configs tid htid
    induction configs using List.reverseRecOn with
    | nil => rfl
    | append_singleton l a ih =>
        rw [settings_map_append_singleton]
        dsimp only
        by_cases ha : a.getD "TargetID" "" = ""
        · rw [if_neg (by simpa using ha)]
          rw [List.filter_append]
          have hfa : [a].filter (fun c => c.getD "TargetID" "" == tid) = [] := by
            simp [List.filter, ha, beq_eq_false_iff_ne.mpr (Ne.symm htid)]
          rw [hfa, List.append_nil]
          exact ih
        · by_cases heq : a.getD "TargetID" "" = tid
          · rw [if_pos ha]
            try dsimp only
            rw [if_pos heq.symm]
            rw [List.filter_append]
            have hfa : [a].filter (fun c => c.getD "TargetID" "" == tid)
                = [a] := by
              simp [List.filter, heq]
            rw [hfa, List.getLast?_concat]
            rfl
          · rw [if_pos ha]
            try dsimp only
            rw [if_neg fun hk => heq hk.symm]
            rw [List.filter_append]
            have hfa : [a].filter (fun c => c.getD "TargetID" "" == tid)
                = [] := by
              simp [List.filter, beq_eq_false_iff_ne.mpr heq]
            rw [hfa, List.append_nil]
            exact ih
  · intro root fd hfd hnone
    unfold extract_formats at hfd
    obtain ⟨fe, _, rfl⟩ := List.mem_map.mp hfd
    have h' : settings_map (formatConfigsOf root) (fe.getD "TargetID" "")
        = none := hnone
    show (settings_map (formatConfigsOf root) (fe.getD "TargetID" "")).getD []
      = []
    rw [h']
    rfl

/-- C9 instantiation: two setting groups sharing `TargetID` `"T1"` — lookup
returns the second group's settings; a format element whose `TargetID` is
unknown to the map gets an empty settings list. -/
theorem duplicate_targetid_last_wins_witness :
    settings_map
      [Xml.elem "FormatConfiguration" [("TargetID", "T1")] none
        [Xml.elem "FormatSettings" [] none
          [Xml.elem "FormatSetting" [("Name", "A"), ("Value", "1")] none []]],
       Xml.elem "FormatConfiguration" [("TargetID", "T1")] none
        [Xml.elem "FormatSettings" [] none
          [Xml.elem "FormatSetting" [("Name", "A"), ("Value", "2")] none []]]]
      "T1" = some [⟨"A", "2"⟩] ∧
    FormatDesc.settings (mkFormat
      (settings_map
        [Xml.elem "FormatConfiguration" [("TargetID", "T1")] none
          [Xml.elem "FormatSettings" [] none
            [Xml.elem "FormatSetting" [("Name", "A"), ("Value", "1")] none []]],
         Xml.elem "FormatConfiguration" [("TargetID", "T1")] none
          [Xml.elem "FormatSettings" [] none
            [Xml.elem "FormatSetting" [("Name", "A"), ("Value", "2")] none
              []]]])
      (Xml.elem "Format" [("Name", "X"), ("TargetID", "T9")] none []))
      = [] := by
  constructor
  · rw [duplicate_targetid_last_wins.1 _ "T1" (by decide)]
    decide
  · decide


end AutoMap
